import Mathlib

/-!
# Verification of the `respiro.illumio` Ansible collection

Shallow embedding of the two modules of the repository
`RespiroConsulting/illumio_collection`:

* `plugins/modules/assign_managed_labels.py` (`run_module`): reads a CSV of
  workload rows, fetches the label catalog once, then per row resolves the
  four label hrefs (creating missing labels), fetches the managed workloads
  and updates every workload/interface pair whose address or public ip
  matches the row's ip.
* `plugins/modules/create_label.py` (`run_module`): either iterates a CSV of
  `(type, name)` rows, posting a create request per valid row, or handles a
  single `name`/`type` pair.

HTTP traffic is modelled by an environment supplying response data, and by
an explicit trace of issued requests (`Event` / `CEvent`).  Python strings
are Lean `String`s; the bytes of a create response body are a `List Nat`
(the Python code indexes `response.content[0]`, which in Python 3 is an
`int`).  Python dictionaries keyed by strings are association lists where
insertion prepends, so the most recent binding wins on lookup, matching
dict overwrite semantics.
-/

namespace Illumio

/-! ## Data model of the assignment module -/

/-- One entry of a workload's `interfaces` array (only `address` is read). -/
structure Interface where
  address : String
deriving DecidableEq, Repr

/-- A managed workload as returned by
`GET {pce}/api/v2/{org_href}/workloads?managed=true` (the fields read by the
module: `href`, `public_ip`, `interfaces`). -/
structure Workload where
  href : String
  public_ip : String
  interfaces : List Interface
deriving DecidableEq, Repr

/-- One row of the workload CSV file: columns `ip,role,app,env,loc`.
`csv.DictReader` yields the cell contents as strings (an empty cell is the
empty string, never `None`), so the `if role is not None:` guards in the
Python source are always taken and are not reproduced as branches here. -/
structure Row where
  ip : String
  role : String
  app : String
  env : String
  loc : String
deriving DecidableEq, Repr

/-- A value stored in the label catalog: hrefs fetched from
`GET .../labels` are strings, while a value produced by the module's
`create_label` helper is `requests.post(...).content[0]`, i.e. the first
byte of the response body (an `int` in Python 3). -/
inductive HrefVal where
  | str (s : String)
  | byte (b : Nat)
deriving DecidableEq, Repr

/-- Python truthiness of a catalog value: a string is truthy iff nonempty,
an int is truthy iff nonzero (`if role_href:` in the source). -/
def truthy : HrefVal → Bool
  | .str s => !(s == "")
  | .byte b => !(b == 0)

/-- A Python dict keyed by strings, as an association list: insertion
prepends, lookup takes the most recent binding. -/
abbrev Dict := List (String × HrefVal)

/-- Lookup in a `Dict` (`role in labels_details['role']` /
`labels_details['role'][role]`). -/
def dictLookup : Dict → String → Option HrefVal
  | [], _ => none
  | (k, v) :: rest, key => if k == key then some v else dictLookup rest key

/-- Insertion into a `Dict` (`labels_details['role'][role] = href`). -/
def dictInsert (d : Dict) (k : String) (v : HrefVal) : Dict :=
  (k, v) :: d

/-- The in-memory label catalog `labels_details`, one dict per label type. -/
structure Catalog where
  role : Dict
  app : Dict
  env : Dict
  loc : Dict
deriving DecidableEq, Repr

/-- One element of the JSON array returned by `GET .../labels`. -/
structure LabelData where
  key : String
  value : String
  href : String
deriving DecidableEq, Repr

/-- The labels GET response: its parsed JSON array together with the byte
length of the raw body (the source tests `len(response.content) == 500`). -/
structure LabelsResponse where
  contentLen : Nat
  items : List LabelData
deriving DecidableEq, Repr

/-- Abnormal termination of the assignment module (it has no exception
handling, so these abort the run). -/
inductive RunError where
  /-- `len(response.content) == 500` makes `display_labels` replace the
  response by the never-awaited coroutine `async_api(labels_API)`; the
  subsequent `json.loads(response.content)` raises `AttributeError`. -/
  | asyncBranch
  /-- `create_label(...)` returned an empty body, so `[0]` raises
  `IndexError`. -/
  | emptyCreateResponse
deriving DecidableEq, Repr

/-- An HTTP request issued by the assignment module's row loop. -/
inductive Event where
  | post (key value : String)
  | put (uri : String) (labels : List HrefVal)
deriving DecidableEq, Repr

/-- The environment of one assignment run: the labels GET response, the
managed-workloads GET response (the module re-fetches it for every row; the
platform is modelled as answering identically each time), the body bytes
answered to `POST .../labels` for a given key/value, and the `pce` base
URL parameter. -/
structure Env where
  labelsResp : LabelsResponse
  workloads : List Workload
  createResp : String → String → List Nat
  pce : String

/-! ## The assignment module (`assign_managed_labels.py`) -/

/-- Loop body of `display_labels`: each `label_data` is tested against the
four keys by independent `if` statements and inserted into the matching
inner dict. -/
def catalogStep (cat : Catalog) (ld : LabelData) : Catalog :=
  let cat := if ld.key == "role" then
    { cat with role := dictInsert cat.role ld.value (.str ld.href) } else cat
  let cat := if ld.key == "app" then
    { cat with app := dictInsert cat.app ld.value (.str ld.href) } else cat
  let cat := if ld.key == "env" then
    { cat with env := dictInsert cat.env ld.value (.str ld.href) } else cat
  let cat := if ld.key == "loc" then
    { cat with loc := dictInsert cat.loc ld.value (.str ld.href) } else cat
  cat

/-- Builds `labels` from the parsed GET body (`for label_data in obj: ...`). -/
def buildCatalog (items : List LabelData) : Catalog :=
  items.foldl catalogStep ⟨[], [], [], []⟩

/-- The function `display_labels`: fetch the labels list; if the raw body is exactly
500 bytes long the code overwrites `response` with the un-awaited coroutine
returned by `async_api`, and `json.loads(response.content)` then raises.
Otherwise the synchronous body is parsed into the catalog. -/
def display_labels (resp : LabelsResponse) : Except RunError Catalog :=
  if resp.contentLen == 500 then .error .asyncBranch
  else .ok (buildCatalog resp.items)

/-- The per-type resolution block, e.g. for `role`:
`if role in labels_details['role']: role_href = labels_details['role'][role]`
`else: href = create_label("role", role)[0]; labels_details['role'][role] = href; role_href = href`.
Returns the updated dict, the trace of create requests issued, and the
resolved href value. -/
def resolveOne (createResp : String → String → List Nat) (d : Dict)
    (key value : String) : Except RunError (Dict × List Event × HrefVal) :=
  match dictLookup d value with
  | some h => .ok (d, [], h)
  | none =>
    match createResp key value with
    | [] => .error .emptyCreateResponse
    | b :: _ => .ok (dictInsert d value (.byte b), [.post key value], .byte b)

/-- Resolves the four hrefs of one CSV row, in source order
role, app, env, loc, threading the catalog. -/
def resolveRow (env : Env) (cat : Catalog) (row : Row) :
    Except RunError (Catalog × List Event × HrefVal × HrefVal × HrefVal × HrefVal) := do
  let (dr, e1, rh) ← resolveOne env.createResp cat.role "role" row.role
  let (da, e2, ah) ← resolveOne env.createResp cat.app "app" row.app
  let (de, e3, eh) ← resolveOne env.createResp cat.env "env" row.env
  let (dl, e4, lh) ← resolveOne env.createResp cat.loc "loc" row.loc
  .ok (⟨dr, da, de, dl⟩, e1 ++ e2 ++ e3 ++ e4, rh, ah, eh, lh)

/-- The `label` payload list built inside the matching branch:
`label = []`, then one `label.append({"href": h})` per truthy href, in
source order role, app, env, loc. -/
def buildLabel (r a e l : HrefVal) : List HrefVal :=
  (if truthy r then [r] else []) ++ (if truthy a then [a] else []) ++
    (if truthy e then [e] else []) ++ (if truthy l then [l] else [])

/-- The `if` condition of the inner loop:
`data['address'] == public_ip or values['public_ip'] == public_ip`.
Note that it is evaluated once per *interface* of the workload. -/
def matchCond (w : Workload) (ip : String) (d : Interface) : Bool :=
  d.address == ip || w.public_ip == ip

/-- How many interfaces of `w` trigger the matching branch for target `ip`
(the branch body runs once per such interface). -/
def matchCount (w : Workload) (ip : String) : Nat :=
  (w.interfaces.filter (matchCond w ip)).length

/-- Total number of times the matching branch runs for one row. -/
def numMatches (workloads : List Workload) (ip : String) : Nat :=
  (workloads.map (fun w => matchCount w ip)).sum

/-- The PUT requests issued for one workload while processing one row:
one `PUT {pce}/api/v2{values['href']}` per matching interface, each with
the same payload. -/
def workloadEvents (pce : String) (lbl : List HrefVal) (ip : String)
    (w : Workload) : List Event :=
  (w.interfaces.filter (matchCond w ip)).map
    (fun _ => .put (pce ++ "/api/v2" ++ w.href) lbl)

/-- What one iteration of the CSV row loop contributes: the catalog after
resolution, the requests issued, and the rows appended to
`list['assigned']` / `list['not_assigned']`. -/
structure RowResult where
  catalog : Catalog
  events : List Event
  assigned : List String
  notAssigned : List String
deriving DecidableEq, Repr

/-- One iteration of `for rows in workload_details:`: resolve the four
hrefs, fetch the managed workloads, run the nested matching loops
(appending `public_ip` to `list['assigned']` and issuing a PUT once per
matching workload/interface pair), and append to `list['not_assigned']`
iff `check` stayed `0`. -/
def processRow (env : Env) (cat : Catalog) (row : Row) :
    Except RunError RowResult := do
  let (cat', resEvs, rh, ah, eh, lh) ← resolveRow env cat row
  let lbl := buildLabel rh ah eh lh
  let putEvs := (env.workloads.map (workloadEvents env.pce lbl row.ip)).flatten
  let n := numMatches env.workloads row.ip
  .ok ⟨cat', resEvs ++ putEvs, List.replicate n row.ip,
    if n == 0 then [row.ip] else []⟩

/-- The accumulated state of one assignment run. -/
structure RunState where
  catalog : Catalog
  events : List Event
  assigned : List String
  notAssigned : List String
deriving DecidableEq, Repr

/-- The CSV row loop of `run_module`. -/
def runRows (env : Env) : RunState → List Row → Except RunError RunState
  | st, [] => .ok st
  | st, row :: rest => do
    let rr ← processRow env st.catalog row
    runRows env ⟨rr.catalog, st.events ++ rr.events,
      st.assigned ++ rr.assigned, st.notAssigned ++ rr.notAssigned⟩ rest

/-- The function `run_module` of `assign_managed_labels.py`: build the catalog via
`display_labels`, then process every CSV row. -/
def run_module (env : Env) (rows : List Row) : Except RunError RunState := do
  let cat ← display_labels env.labelsResp
  runRows env ⟨cat, [], [], []⟩ rows

/-! ## Trace observations -/

/-- Is this event a create request for the pair `(k, v)`? -/
def isPostKV (k v : String) : Event → Bool
  | .post k' v' => k' == k && v' == v
  | .put _ _ => false

/-- Number of create requests for the pair `(k, v)` in a trace. -/
def postCount (evs : List Event) (k v : String) : Nat :=
  (evs.filter (isPostKV k v)).length

/-- Is this event an update (PUT) request? -/
def isPut : Event → Bool
  | .put _ _ => true
  | .post _ _ => false

/-- Number of update (PUT) requests in a trace. -/
def putCount (evs : List Event) : Nat :=
  (evs.filter isPut).length

/-- The payloads of the update requests in a trace, in order. -/
def putPayloads (evs : List Event) : List (List HrefVal) :=
  evs.filterMap (fun e => match e with
    | .put _ lbl => some lbl
    | .post _ _ => none)

/-! ## The creation module (`create_label.py`) -/

/-- One row of the label CSV file: columns `type,name`. -/
structure CRow where
  type : String
  name : String
deriving DecidableEq, Repr

/-- An observable step of the creation module: a create request issued to
`POST .../labels`, or an append to `list["success"]` / `list["error"]`. -/
inductive CEvent where
  | cpost (key value : String)
  | recordSuccess (s : String)
  | recordError (s : String)
deriving DecidableEq, Repr

/-- The CSV-mode validity test, literally
`key == 'loc' or key == 'env' or key == 'role' or key == 'app'`. -/
def validTypeCsv (key : String) : Bool :=
  key == "loc" || key == "env" || key == "role" || key == "app"

/-- The single-record-mode validity test, literally
`l_type == 'env' or l_type == 'loc' or l_type == 'app' or l_type == 'role'`. -/
def validTypeSingle (t : String) : Bool :=
  t == "env" || t == "loc" || t == "app" || t == "role"

/-- Outcome of one creation run. `normal` is
`module.exit_json(error=..., success=...)` carrying the event trace;
`invalidSingle` is `module.exit_json(msg="Invalid type value.", failed=l_type)`;
`paramMismatch` is `module.exit_json(msg="Parameter mismatch.")`;
`failError` is the catch-all `module.fail_json(msg="Error!!")`, reached when
a `requests.post` call raises, carrying the events up to that point. -/
inductive CreationOutcome where
  | normal (events : List CEvent)
  | invalidSingle (failedType : String)
  | paramMismatch
  | failError (events : List CEvent)
deriving DecidableEq, Repr

/-- Python truthiness of an optional string parameter (`if l_path:`,
`elif l_type and l_name:`): `None` and `""` are falsy. -/
def strTruthy : Option String → Bool
  | none => false
  | some s => !(s == "")

/-- The CSV row loop of the creation module. Per row: if the type is
valid, `requests.post(...)` (a `none` response models the call raising, in
which case the catch-all `fail_json` fires) and then
`list["success"].append(key + " : " + value)`; otherwise
`list["error"].append("Invalid type:" + key + ". Type should be either env,app,loc,role")`
and the loop continues. The POST response value is otherwise never read. -/
def csvRun (resp : String → String → Option Nat) :
    List CEvent → List CRow → CreationOutcome
  | acc, [] => .normal acc
  | acc, r :: rest =>
    if validTypeCsv r.type then
      match resp r.type r.name with
      | none => .failError (acc ++ [.cpost r.type r.name])
      | some _ =>
        csvRun resp (acc ++ [.cpost r.type r.name,
          .recordSuccess (r.type ++ " : " ++ r.name)]) rest
    else
      csvRun resp (acc ++ [.recordError ("Invalid type:" ++ r.type ++
        ". Type should be either env,app,loc,role")]) rest

/-- The function `run_module` of `create_label.py`. `rows` is the parsed content of the
CSV file at `l_path`; `resp` gives the status of a `POST .../labels` for a
given key/value (`none` = the call raised). In single-record mode the
success string is appended *before* the POST is issued. -/
def create_run_module (nameP typeP pathP : Option String) (rows : List CRow)
    (resp : String → String → Option Nat) : CreationOutcome :=
  if strTruthy pathP then
    csvRun resp [] rows
  else if strTruthy typeP && strTruthy nameP then
    let t := typeP.getD ""
    let n := nameP.getD ""
    if validTypeSingle t then
      match resp t n with
      | none => .failError [.recordSuccess (t ++ " : " ++ n), .cpost t n]
      | some _ => .normal [.recordSuccess (t ++ " : " ++ n), .cpost t n]
    else
      .invalidSingle t
  else
    .paramMismatch

/-- The events of an outcome (empty when the run stopped before the loop). -/
def outcomeEvents : CreationOutcome → List CEvent
  | .normal evs => evs
  | .failError evs => evs
  | .invalidSingle _ => []
  | .paramMismatch => []

/-- The `list["success"]` entries of a trace, in order. -/
def successOf (evs : List CEvent) : List String :=
  evs.filterMap (fun e => match e with
    | .recordSuccess s => some s
    | _ => none)

/-- The `list["error"]` entries of a trace, in order. -/
def errorsOf (evs : List CEvent) : List String :=
  evs.filterMap (fun e => match e with
    | .recordError s => some s
    | _ => none)

/-- The create requests of a trace, in order, as `(type, name)` pairs. -/
def createPosts (evs : List CEvent) : List (String × String) :=
  evs.filterMap (fun e => match e with
    | .cpost k v => some (k, v)
    | _ => none)

/-! ## Proof-side observations -/

/-- Whether the in-memory catalog already holds an identifier for the pair
`(k, v)`; for a `k` that is not one of the four label types the module
never issues a create request, which the `true` default reflects. -/
def catHas (cat : Catalog) (k v : String) : Bool :=
  if k == "role" then (dictLookup cat.role v).isSome
  else if k == "app" then (dictLookup cat.app v).isSome
  else if k == "env" then (dictLookup cat.env v).isSome
  else if k == "loc" then (dictLookup cat.loc v).isSome
  else true

/-! ## Concrete fixtures used to evaluate the model on closed inputs -/

/-- A labels GET body holding one label of each type with value `"x"`. -/
def itemsAll : List LabelData :=
  [⟨"role", "x", "hr"⟩, ⟨"app", "x", "ha"⟩, ⟨"env", "x", "he"⟩,
    ⟨"loc", "x", "hl"⟩]

/-- A create-response function answering a one-byte body `[123]`
(the byte of a brace character that opens a JSON object). -/
def respByte : String → String → List Nat := fun _ _ => [123]

/-- Environment with a single workload whose `public_ip` is `"1.2.3.4"`
and whose `interfaces` array is empty. -/
def envC1 : Env :=
  ⟨⟨10, itemsAll⟩, [⟨"/w1", "1.2.3.4", []⟩], respByte, "https://pce"⟩

/-- A CSV row targeting ip `"1.2.3.4"` with all four label values `"x"`. -/
def rowX : Row := ⟨"1.2.3.4", "x", "x", "x", "x"⟩

/-- Environment whose catalog is missing a `role` entry for the empty
string, and with one workload matched through its single interface. -/
def envC2 : Env :=
  ⟨⟨10, [⟨"app", "x", "ha"⟩, ⟨"env", "x", "he"⟩, ⟨"loc", "x", "hl"⟩]⟩,
    [⟨"/w1", "9.9.9.9", [⟨"1.2.3.4"⟩]⟩], respByte, "https://pce"⟩

/-- Environment with a single workload whose `public_ip` is `"1.2.3.4"`
and which has two interfaces, neither of whose addresses matches. -/
def envC9 : Env :=
  ⟨⟨10, itemsAll⟩, [⟨"/w1", "1.2.3.4", [⟨"10.0.0.1"⟩, ⟨"10.0.0.2"⟩]⟩],
    respByte, "https://pce"⟩

/-- A creation-module response function answering status 201 always. -/
def respOk : String → String → Option Nat := fun _ _ => some 201

/-- A creation-module response function whose every call raises. -/
def respNone : String → String → Option Nat := fun _ _ => none

/-- A CSV row whose ip matches nothing in `envC1`. -/
def rowNM : Row := ⟨"5.5.5.5", "x", "x", "x", "x"⟩

/-- The row of the C2 scenario: an empty `role` cell, other cells `"x"`. -/
def rowC2 : Row := ⟨"1.2.3.4", "", "x", "x", "x"⟩

/-! ## Helper lemmas -/

theorem dictLookup_insert_self (d : Dict) (k : String) (v : HrefVal) :
    dictLookup (dictInsert d k v) k = some v := by
  simp [dictInsert, dictLookup]

theorem dictLookup_insert_isSome (d : Dict) (k k' : String) (v : HrefVal)
    (h : (dictLookup d k').isSome) :
    (dictLookup (dictInsert d k v) k').isSome := by
  by_cases hk : k == k' <;> simp [dictInsert, dictLookup, hk, h]

/-- Case analysis on a successful `resolveOne` call. -/
theorem resolveOne_cases {c : String → String → List Nat} {d : Dict}
    {key value : String} {d' : Dict} {evs : List Event} {h : HrefVal}
    (heq : resolveOne c d key value = .ok (d', evs, h)) :
    (dictLookup d value = some h ∧ d' = d ∧ evs = []) ∨
      (dictLookup d value = none ∧ d' = dictInsert d value h ∧
        evs = [.post key value]) := by
  unfold resolveOne at heq
  cases hl : dictLookup d value with
  | some hv =>
    rw [hl] at heq
    simp at heq
    obtain ⟨rfl, rfl, rfl⟩ := heq
    exact .inl ⟨rfl, rfl, rfl⟩
  | none =>
    rw [hl] at heq
    cases hc : c key value with
    | nil => rw [hc] at heq; simp at heq
    | cons b rest =>
      rw [hc] at heq
      simp at heq
      obtain ⟨rfl, rfl, rfl⟩ := heq
      exact .inr ⟨rfl, rfl, rfl⟩

theorem postCount_nil (k v : String) : postCount [] k v = 0 := rfl

theorem postCount_append (a b : List Event) (k v : String) :
    postCount (a ++ b) k v = postCount a k v + postCount b k v := by
  simp [postCount, List.filter_append]

theorem putCount_append (a b : List Event) :
    putCount (a ++ b) = putCount a + putCount b := by
  simp [putCount, List.filter_append]

theorem putPayloads_append (a b : List Event) :
    putPayloads (a ++ b) = putPayloads a ++ putPayloads b := by
  simp [putPayloads]

theorem postCount_le_length (evs : List Event) (k v : String) :
    postCount evs k v ≤ evs.length :=
  List.length_filter_le _ _

theorem resolveOne_postCount_le {c : String → String → List Nat} {d : Dict}
    {key value : String} {d' : Dict} {evs : List Event} {h : HrefVal}
    (heq : resolveOne c d key value = .ok (d', evs, h)) (k v : String) :
    postCount evs k v ≤ if (dictLookup d v).isSome then 0 else 1 := by
  rcases resolveOne_cases heq with ⟨hl, _, rfl⟩ | ⟨hl, _, rfl⟩
  · simp [postCount]
  · by_cases hv : v = value
    · subst hv
      rw [hl]
      simp only [Option.isSome_none, Bool.false_eq_true, if_false]
      exact le_trans (postCount_le_length _ _ _) (by simp)
    · have hfalse : isPostKV k v (.post key value) = false := by
        simp [isPostKV]
        intro _
        exact fun hvv => absurd hvv.symm hv
      have hzero : postCount [Event.post key value] k v = 0 := by
        simp [postCount, List.filter, hfalse]
      rw [hzero]
      exact Nat.zero_le _

theorem resolveOne_lookup_mono {c : String → String → List Nat} {d : Dict}
    {key value : String} {d' : Dict} {evs : List Event} {h : HrefVal}
    (heq : resolveOne c d key value = .ok (d', evs, h)) (v : String)
    (hs : (dictLookup d v).isSome) : (dictLookup d' v).isSome := by
  rcases resolveOne_cases heq with ⟨_, rfl, _⟩ | ⟨_, rfl, _⟩
  · exact hs
  · exact dictLookup_insert_isSome _ _ _ _ hs

theorem resolveOne_post_lookup {c : String → String → List Nat} {d : Dict}
    {key value : String} {d' : Dict} {evs : List Event} {h : HrefVal}
    (heq : resolveOne c d key value = .ok (d', evs, h)) (k v : String)
    (hp : 0 < postCount evs k v) : (dictLookup d' v).isSome := by
  rcases resolveOne_cases heq with ⟨_, rfl, rfl⟩ | ⟨hl, rfl, rfl⟩
  · simp [postCount] at hp
  · by_cases hv : v = value
    · subst hv; simp [dictLookup_insert_self]
    · exfalso
      have : isPostKV k v (.post key value) = false := by
        simp [isPostKV]
        intro _
        exact fun hvv => absurd hvv.symm hv
      simp [postCount, List.filter, this] at hp

theorem resolveOne_postCount_ne_key {c : String → String → List Nat}
    {d : Dict} {key value : String} {d' : Dict} {evs : List Event}
    {h : HrefVal} (heq : resolveOne c d key value = .ok (d', evs, h))
    (k v : String) (hk : k ≠ key) : postCount evs k v = 0 := by
  rcases resolveOne_cases heq with ⟨_, _, rfl⟩ | ⟨_, _, rfl⟩
  · simp [postCount]
  · have : isPostKV k v (.post key value) = false := by
      simp [isPostKV]
      exact fun hkk => absurd hkk.symm hk
    simp [postCount, List.filter, this]

theorem resolveOne_no_puts {c : String → String → List Nat} {d : Dict}
    {key value : String} {d' : Dict} {evs : List Event} {h : HrefVal}
    (heq : resolveOne c d key value = .ok (d', evs, h)) :
    putCount evs = 0 ∧ putPayloads evs = [] := by
  rcases resolveOne_cases heq with ⟨_, _, rfl⟩ | ⟨_, _, rfl⟩ <;>
    simp [putCount, putPayloads, isPut, List.filter]

theorem putCount_map_put {α : Type} (l : List α) (uri : String)
    (lbl : List HrefVal) :
    putCount (l.map (fun _ => Event.put uri lbl)) = l.length := by
  induction l with
  | nil => rfl
  | cons a l ih =>
    simp only [List.map_cons, putCount, List.filter_cons] at ih ⊢
    simp [isPut, ih]

theorem putPayloads_map_put {α : Type} (l : List α) (uri : String)
    (lbl : List HrefVal) :
    putPayloads (l.map (fun _ => Event.put uri lbl)) =
      List.replicate l.length lbl := by
  induction l with
  | nil => rfl
  | cons a l ih =>
    simp only [List.map_cons, putPayloads, List.filterMap_cons] at ih ⊢
    simp [ih, List.replicate_succ]

theorem postCount_map_put {α : Type} (l : List α) (uri : String)
    (lbl : List HrefVal) (k v : String) :
    postCount (l.map (fun _ => Event.put uri lbl)) k v = 0 := by
  induction l with
  | nil => rfl
  | cons a l ih =>
    simp only [List.map_cons, postCount, List.filter_cons] at ih ⊢
    simp [isPostKV, ih]

theorem workloadEvents_putCount (pce : String) (lbl : List HrefVal)
    (ip : String) (w : Workload) :
    putCount (workloadEvents pce lbl ip w) = matchCount w ip ∧
      putPayloads (workloadEvents pce lbl ip w) =
        List.replicate (matchCount w ip) lbl ∧
      (∀ k v, postCount (workloadEvents pce lbl ip w) k v = 0) := by
  refine ⟨?_, ?_, fun k v => ?_⟩
  · rw [workloadEvents, putCount_map_put, matchCount]
  · rw [workloadEvents, putPayloads_map_put, matchCount]
  · rw [workloadEvents, postCount_map_put]

/-- Request counts for the whole PUT block of one row. -/
theorem putBlock_counts (pce : String) (lbl : List HrefVal) (ip : String)
    (ws : List Workload) :
    putCount ((ws.map (workloadEvents pce lbl ip)).flatten) =
        numMatches ws ip ∧
      putPayloads ((ws.map (workloadEvents pce lbl ip)).flatten) =
        List.replicate (numMatches ws ip) lbl ∧
      (∀ k v,
        postCount ((ws.map (workloadEvents pce lbl ip)).flatten) k v = 0) := by
  induction ws with
  | nil => exact ⟨rfl, rfl, fun k v => rfl⟩
  | cons w ws ih =>
    have hw := workloadEvents_putCount pce lbl ip w
    simp only [List.map_cons, List.flatten_cons]
    rw [putCount_append, putPayloads_append]
    have hnum : numMatches (w :: ws) ip = matchCount w ip + numMatches ws ip := by
      simp only [numMatches, List.map_cons, List.sum_cons]
    refine ⟨?_, ?_, fun k v => ?_⟩
    · rw [hw.1, ih.1, hnum]
    · rw [hw.2.1, ih.2.1, hnum, List.replicate_add]
    · rw [postCount_append, hw.2.2 k v, ih.2.2 k v]

/-- Successful row resolution decomposes into four successful
`resolveOne` calls, in source order. -/
theorem resolveRow_cases {env : Env} {cat : Catalog} {row : Row}
    {cat' : Catalog} {evs : List Event} {rh ah eh lh : HrefVal}
    (h : resolveRow env cat row = .ok (cat', evs, rh, ah, eh, lh)) :
    ∃ dr e1 da e2 de e3 dl e4,
      resolveOne env.createResp cat.role "role" row.role = .ok (dr, e1, rh) ∧
      resolveOne env.createResp cat.app "app" row.app = .ok (da, e2, ah) ∧
      resolveOne env.createResp cat.env "env" row.env = .ok (de, e3, eh) ∧
      resolveOne env.createResp cat.loc "loc" row.loc = .ok (dl, e4, lh) ∧
      cat' = ⟨dr, da, de, dl⟩ ∧ evs = e1 ++ e2 ++ e3 ++ e4 := by
  unfold resolveRow at h
  cases h1 : resolveOne env.createResp cat.role "role" row.role with
  | error e =>
    rw [h1] at h
    simp only [Bind.bind, Except.bind] at h
    exact Except.noConfusion h
  | ok x1 =>
    obtain ⟨dr, e1, rh1⟩ := x1
    rw [h1] at h
    cases h2 : resolveOne env.createResp cat.app "app" row.app with
    | error e =>
      rw [h2] at h
      simp only [Bind.bind, Except.bind] at h
      exact Except.noConfusion h
    | ok x2 =>
      obtain ⟨da, e2, ah1⟩ := x2
      rw [h2] at h
      cases h3 : resolveOne env.createResp cat.env "env" row.env with
      | error e =>
        rw [h3] at h
        simp only [Bind.bind, Except.bind] at h
        exact Except.noConfusion h
      | ok x3 =>
        obtain ⟨de, e3, eh1⟩ := x3
        rw [h3] at h
        cases h4 : resolveOne env.createResp cat.loc "loc" row.loc with
        | error e =>
          rw [h4] at h
          simp only [Bind.bind, Except.bind] at h
          exact Except.noConfusion h
        | ok x4 =>
          obtain ⟨dl, e4, lh1⟩ := x4
          rw [h4] at h
          simp only [Bind.bind, Except.bind, Except.ok.injEq,
            Prod.mk.injEq] at h
          obtain ⟨rfl, rfl, rfl, rfl, rfl, rfl⟩ := h
          exact ⟨dr, e1, da, e2, de, e3, dl, e4, rfl, rfl, rfl, rfl, rfl,
            by simp⟩

/-- A successful `processRow` is a successful `resolveRow` followed by the
PUT block and the two accumulator appends. -/
theorem processRow_eq {env : Env} {cat : Catalog} {row : Row}
    {rr : RowResult} (h : processRow env cat row = .ok rr) :
    ∃ cat' evs rh ah eh lh,
      resolveRow env cat row = .ok (cat', evs, rh, ah, eh, lh) ∧
      rr = ⟨cat',
        evs ++ (env.workloads.map
          (workloadEvents env.pce (buildLabel rh ah eh lh) row.ip)).flatten,
        List.replicate (numMatches env.workloads row.ip) row.ip,
        if numMatches env.workloads row.ip == 0 then [row.ip] else []⟩ := by
  unfold processRow at h
  cases hr : resolveRow env cat row with
  | error e =>
    rw [hr] at h
    simp only [Bind.bind, Except.bind] at h
    exact Except.noConfusion h
  | ok x =>
    obtain ⟨cat', evs, rh, ah, eh, lh⟩ := x
    rw [hr] at h
    simp only [Bind.bind, Except.bind, Except.ok.injEq] at h
    exact ⟨cat', evs, rh, ah, eh, lh, rfl, h.symm⟩

theorem catHas_role (cat : Catalog) (v : String) :
    catHas cat "role" v = (dictLookup cat.role v).isSome := by
  simp [catHas]

theorem catHas_app (cat : Catalog) (v : String) :
    catHas cat "app" v = (dictLookup cat.app v).isSome := by
  simp [catHas]

theorem catHas_env (cat : Catalog) (v : String) :
    catHas cat "env" v = (dictLookup cat.env v).isSome := by
  simp [catHas]

theorem catHas_loc (cat : Catalog) (v : String) :
    catHas cat "loc" v = (dictLookup cat.loc v).isSome := by
  simp [catHas]

theorem catHas_other (cat : Catalog) (k v : String) (h1 : k ≠ "role")
    (h2 : k ≠ "app") (h3 : k ≠ "env") (h4 : k ≠ "loc") :
    catHas cat k v = true := by
  simp [catHas, h1, h2, h3, h4]

/-- Per-row create-request invariant: one row issues at most one create
request for a pair not yet in the catalog and none for a pair already
there, catalog membership never shrinks, and a pair that was just created
is in the catalog afterwards. -/
theorem processRow_invariant {env : Env} {cat : Catalog} {row : Row}
    {rr : RowResult} (h : processRow env cat row = .ok rr) (k v : String) :
    postCount rr.events k v ≤ (if catHas cat k v then 0 else 1) ∧
      (catHas cat k v = true → catHas rr.catalog k v = true) ∧
      (0 < postCount rr.events k v → catHas rr.catalog k v = true) := by
  obtain ⟨cat', evs, rh, ah, eh, lh, hr, rfl⟩ := processRow_eq h
  obtain ⟨dr, e1, da, e2, de, e3, dl, e4, h1, h2, h3, h4, rfl, rfl⟩ :=
    resolveRow_cases hr
  have hputzero :=
    (putBlock_counts env.pce (buildLabel rh ah eh lh) row.ip env.workloads).2.2 k v
  have hdecomp : postCount
      ((e1 ++ e2 ++ e3 ++ e4) ++ (env.workloads.map
        (workloadEvents env.pce (buildLabel rh ah eh lh) row.ip)).flatten) k v =
      postCount e1 k v + postCount e2 k v + postCount e3 k v +
        postCount e4 k v := by
    simp only [postCount_append, hputzero]
    omega
  by_cases hk1 : k = "role"
  · subst hk1
    have b1 := resolveOne_postCount_le h1 "role" v
    have b2 := resolveOne_postCount_ne_key h2 "role" v (by decide)
    have b3 := resolveOne_postCount_ne_key h3 "role" v (by decide)
    have b4 := resolveOne_postCount_ne_key h4 "role" v (by decide)
    refine ⟨?_, ?_, ?_⟩
    · simp only [hdecomp, catHas_role, b2, b3, b4]
      omega
    · intro hc
      rw [catHas_role] at hc ⊢
      exact resolveOne_lookup_mono h1 v hc
    · intro hp
      rw [hdecomp, b2, b3, b4] at hp
      rw [catHas_role]
      exact resolveOne_post_lookup h1 "role" v (by omega)
  by_cases hk2 : k = "app"
  · subst hk2
    have b1 := resolveOne_postCount_le h2 "app" v
    have b2 := resolveOne_postCount_ne_key h1 "app" v (by decide)
    have b3 := resolveOne_postCount_ne_key h3 "app" v (by decide)
    have b4 := resolveOne_postCount_ne_key h4 "app" v (by decide)
    refine ⟨?_, ?_, ?_⟩
    · simp only [hdecomp, catHas_app, b2, b3, b4]
      omega
    · intro hc
      rw [catHas_app] at hc ⊢
      exact resolveOne_lookup_mono h2 v hc
    · intro hp
      rw [hdecomp, b2, b3, b4] at hp
      rw [catHas_app]
      exact resolveOne_post_lookup h2 "app" v (by omega)
  by_cases hk3 : k = "env"
  · subst hk3
    have b1 := resolveOne_postCount_le h3 "env" v
    have b2 := resolveOne_postCount_ne_key h1 "env" v (by decide)
    have b3 := resolveOne_postCount_ne_key h2 "env" v (by decide)
    have b4 := resolveOne_postCount_ne_key h4 "env" v (by decide)
    refine ⟨?_, ?_, ?_⟩
    · simp only [hdecomp, catHas_env, b2, b3, b4]
      omega
    · intro hc
      rw [catHas_env] at hc ⊢
      exact resolveOne_lookup_mono h3 v hc
    · intro hp
      rw [hdecomp, b2, b3, b4] at hp
      rw [catHas_env]
      exact resolveOne_post_lookup h3 "env" v (by omega)
  by_cases hk4 : k = "loc"
  · subst hk4
    have b1 := resolveOne_postCount_le h4 "loc" v
    have b2 := resolveOne_postCount_ne_key h1 "loc" v (by decide)
    have b3 := resolveOne_postCount_ne_key h2 "loc" v (by decide)
    have b4 := resolveOne_postCount_ne_key h3 "loc" v (by decide)
    refine ⟨?_, ?_, ?_⟩
    · simp only [hdecomp, catHas_loc, b2, b3, b4]
      omega
    · intro hc
      rw [catHas_loc] at hc ⊢
      exact resolveOne_lookup_mono h4 v hc
    · intro hp
      rw [hdecomp, b2, b3, b4] at hp
      rw [catHas_loc]
      exact resolveOne_post_lookup h4 "loc" v (by omega)
  · have b1 := resolveOne_postCount_ne_key h1 k v hk1
    have b2 := resolveOne_postCount_ne_key h2 k v hk2
    have b3 := resolveOne_postCount_ne_key h3 k v hk3
    have b4 := resolveOne_postCount_ne_key h4 k v hk4
    have hother : ∀ c : Catalog, catHas c k v = true := fun c =>
      catHas_other c k v hk1 hk2 hk3 hk4
    refine ⟨?_, fun _ => hother _, fun _ => hother _⟩
    simp only [hdecomp, b1, b2, b3, b4, hother]
    omega

/-- A successful non-empty loop run decomposes into its first row and the
remaining rows. -/
theorem runRows_cons_ok {env : Env} {st st1 : RunState} {row : Row}
    {rest : List Row} (h : runRows env st (row :: rest) = .ok st1) :
    ∃ rr, processRow env st.catalog row = .ok rr ∧
      runRows env ⟨rr.catalog, st.events ++ rr.events,
        st.assigned ++ rr.assigned, st.notAssigned ++ rr.notAssigned⟩ rest =
        .ok st1 := by
  unfold runRows at h
  cases hp : processRow env st.catalog row with
  | error e =>
    rw [hp] at h
    simp only [Bind.bind, Except.bind] at h
    exact Except.noConfusion h
  | ok rr =>
    rw [hp] at h
    simp only [Bind.bind, Except.bind] at h
    exact ⟨rr, rfl, h⟩

/-- The accumulators of the loop state only ever grow. -/
theorem runRows_mono {env : Env} {rows : List Row} {st st1 : RunState}
    (h : runRows env st rows = .ok st1) :
    (∀ x, x ∈ st.notAssigned → x ∈ st1.notAssigned) ∧
      (∀ x, x ∈ st.assigned → x ∈ st1.assigned) := by
  induction rows generalizing st with
  | nil =>
    unfold runRows at h
    obtain rfl : st = st1 := Except.ok.inj h
    exact ⟨fun x hx => hx, fun x hx => hx⟩
  | cons row rest ih =>
    obtain ⟨rr, hp, hrest⟩ := runRows_cons_ok h
    have := ih hrest
    exact ⟨fun x hx => this.1 x (List.mem_append_left _ hx),
      fun x hx => this.2 x (List.mem_append_left _ hx)⟩

/-- The create-request invariant carried through the whole loop: the
number of create requests in the trace plus the "still missing" budget
never increases. -/
theorem runRows_postCount {env : Env} {rows : List Row} {st st1 : RunState}
    (h : runRows env st rows = .ok st1) (k v : String) :
    postCount st1.events k v + (if catHas st1.catalog k v then 0 else 1) ≤
      postCount st.events k v + (if catHas st.catalog k v then 0 else 1) := by
  induction rows generalizing st with
  | nil =>
    unfold runRows at h
    obtain rfl : st = st1 := Except.ok.inj h
    exact le_refl _
  | cons row rest ih =>
    obtain ⟨rr, hp, hrest⟩ := runRows_cons_ok h
    have hstep := processRow_invariant hp k v
    have hrec := ih hrest
    simp only [postCount_append] at hrec
    by_cases hc : catHas st.catalog k v
    · have hz : postCount rr.events k v = 0 := by
        have := hstep.1
        rw [if_pos hc] at this
        omega
      have hc1 : catHas rr.catalog k v = true := hstep.2.1 hc
      rw [if_pos hc]
      rw [hz, if_pos hc1] at hrec
      omega
    · rw [if_neg hc]
      have hb : postCount rr.events k v ≤ 1 := by
        have := hstep.1
        rw [if_neg hc] at this
        omega
      by_cases hpp : 0 < postCount rr.events k v
      · have hc1 : catHas rr.catalog k v = true := hstep.2.2 hpp
        rw [if_pos hc1] at hrec
        omega
      · have hz : postCount rr.events k v = 0 := by omega
        rw [hz] at hrec
        have : (if catHas rr.catalog k v then 0 else 1) ≤ 1 := by
          split <;> omega
        omega

/-- A successful full run decomposes into `display_labels` and the loop. -/
theorem run_module_cases {env : Env} {rows : List Row} {st : RunState}
    (h : run_module env rows = .ok st) :
    ∃ cat0, display_labels env.labelsResp = .ok cat0 ∧
      runRows env ⟨cat0, [], [], []⟩ rows = .ok st := by
  unfold run_module at h
  cases hd : display_labels env.labelsResp with
  | error e =>
    rw [hd] at h
    simp only [Bind.bind, Except.bind] at h
    exact Except.noConfusion h
  | ok cat0 =>
    rw [hd] at h
    simp only [Bind.bind, Except.bind] at h
    exact ⟨cat0, rfl, h⟩

/-- A row whose ip matches no workload/interface pair contributes exactly
one `not_assigned` entry, nothing to `assigned`, and no PUT request. -/
theorem processRow_no_match {env : Env} {cat : Catalog} {row : Row}
    {rr : RowResult} (hm : ∀ w ∈ env.workloads, matchCount w row.ip = 0)
    (h : processRow env cat row = .ok rr) :
    rr.notAssigned = [row.ip] ∧ rr.assigned = [] ∧ putCount rr.events = 0 := by
  obtain ⟨cat', evs, rh, ah, eh, lh, hr, rfl⟩ := processRow_eq h
  obtain ⟨dr, e1, da, e2, de, e3, dl, e4, h1, h2, h3, h4, rfl, rfl⟩ :=
    resolveRow_cases hr
  have hnum : numMatches env.workloads row.ip = 0 := by
    refine List.sum_eq_zero ?_
    intro x hx
    obtain ⟨w, hw, rfl⟩ := List.mem_map.mp hx
    exact hm w hw
  have hputs := (putBlock_counts env.pce (buildLabel rh ah eh lh) row.ip
    env.workloads).1
  have p1 := (resolveOne_no_puts h1).1
  have p2 := (resolveOne_no_puts h2).1
  have p3 := (resolveOne_no_puts h3).1
  have p4 := (resolveOne_no_puts h4).1
  refine ⟨by simp [hnum], by simp [hnum], ?_⟩
  simp only [putCount_append, p1, p2, p3, p4, hputs, hnum]

/-- A no-match row's ip ends up in the final `not_assigned` accumulator. -/
theorem runRows_notAssigned_mem {env : Env} {rows : List Row}
    {st st1 : RunState} {row : Row} (h : runRows env st rows = .ok st1)
    (hrow : row ∈ rows)
    (hm : ∀ w ∈ env.workloads, matchCount w row.ip = 0) :
    row.ip ∈ st1.notAssigned := by
  induction rows generalizing st with
  | nil => cases hrow
  | cons r rest ih =>
    obtain ⟨rr, hp, hrest⟩ := runRows_cons_ok h
    rcases List.mem_cons.mp hrow with rfl | hmem
    · have hna := (processRow_no_match hm hp).1
      have hmem1 : row.ip ∈ st.notAssigned ++ rr.notAssigned := by
        rw [hna]
        exact List.mem_append_right _ (by simp)
      exact (runRows_mono hrest).1 _ hmem1
    · exact ih hrest hmem

/-- The payload construction keeps, in source order, exactly the truthy
resolved hrefs. -/
theorem buildLabel_eq_filter (r a e l : HrefVal) :
    buildLabel r a e l = [r, a, e, l].filter truthy := by
  simp only [buildLabel, List.filter]
  cases truthy r <;> cases truthy a <;> cases truthy e <;>
    cases truthy l <;> simp

theorem mem_errorsOf {evs : List CEvent} {s : String}
    (h : CEvent.recordError s ∈ evs) : s ∈ errorsOf evs := by
  simp only [errorsOf, List.mem_filterMap]
  exact ⟨_, h, rfl⟩

/-- Events already accumulated survive to the final trace of a normally
completed CSV run. -/
theorem csvRun_mem_of_normal {resp : String → String → Option Nat}
    {rows : List CRow} {acc evs : List CEvent}
    (h : csvRun resp acc rows = .normal evs) {e : CEvent} (he : e ∈ acc) :
    e ∈ evs := by
  induction rows generalizing acc with
  | nil =>
    unfold csvRun at h
    obtain rfl := CreationOutcome.normal.inj h
    exact he
  | cons r rest ih =>
    unfold csvRun at h
    by_cases hv : validTypeCsv r.type
    · rw [if_pos hv] at h
      cases hresp : resp r.type r.name with
      | none => rw [hresp] at h; exact CreationOutcome.noConfusion h
      | some s =>
        rw [hresp] at h
        exact ih h (List.mem_append_left _ he)
    · rw [if_neg hv] at h
      exact ih h (List.mem_append_left _ he)

/-- When no POST raises, the CSV run issues exactly one create request per
valid row, in order, independently of any existing labels. -/
theorem csvRun_posts {resp : String → String → Option Nat}
    (hresp : ∀ k v, (resp k v).isSome = true) (rows : List CRow) :
    ∀ acc, createPosts (outcomeEvents (csvRun resp acc rows)) =
      createPosts acc ++
        (rows.filter (fun r => validTypeCsv r.type)).map
          (fun r => (r.type, r.name)) := by
  induction rows with
  | nil => intro acc; simp [csvRun, outcomeEvents]
  | cons r rest ih =>
    intro acc
    unfold csvRun
    by_cases hv : validTypeCsv r.type
    · rw [if_pos hv]
      cases hresp2 : resp r.type r.name with
      | none =>
        exfalso
        have := hresp r.type r.name
        rw [hresp2] at this
        simp at this
      | some s =>
        rw [ih]
        simp [createPosts, List.filterMap_append, hv, List.filter_cons]
    · rw [if_neg hv]
      rw [ih]
      simp [createPosts, List.filterMap_append, hv, List.filter_cons]

/-- Two never-raising response functions are indistinguishable to the CSV
loop: the response of a create request is never inspected. -/
theorem csvRun_resp_irrel {resp resp2 : String → String → Option Nat}
    (ha : ∀ k v, (resp k v).isSome = true)
    (hb : ∀ k v, (resp2 k v).isSome = true) (rows : List CRow) :
    ∀ acc, csvRun resp acc rows = csvRun resp2 acc rows := by
  induction rows with
  | nil => intro acc; rfl
  | cons r rest ih =>
    intro acc
    by_cases hv : validTypeCsv r.type
    · cases h2 : resp r.type r.name with
      | none =>
        exfalso
        have := ha r.type r.name
        rw [h2] at this
        simp at this
      | some s =>
        cases h3 : resp2 r.type r.name with
        | none =>
          exfalso
          have := hb r.type r.name
          rw [h3] at this
          simp at this
        | some s2 =>
          simp only [csvRun, hv, if_true, h2, h3]
          exact ih _
    · simp only [csvRun, hv, if_false, Bool.false_eq_true]
      exact ih _

/-! ## Claims -/

/-- C1, counterexample: the claim says a workload whose `public_ip` equals
the target ip matches even when its `interfaces` sequence is empty.  In
`envC1` the only fetched workload has `public_ip = "1.2.3.4"` and no
interfaces; processing a CSV row for that very ip records it as
not assigned and issues no update request, because the `public_ip`
comparison sits inside the loop over `interfaces`. -/
theorem C1_counterexample :
    (run_module envC1 [rowX]).map
      (fun st => (st.assigned, st.notAssigned, putCount st.events)) =
    .ok ([], ["1.2.3.4"], 0) := by rfl

/-- C1, amended: a workload's matching branch runs at least once iff the
workload has at least one interface AND (its `public_ip` equals the target
ip or some interface address does); with an empty `interfaces` sequence it
never matches, whatever its `public_ip`.  Updates are issued exactly when
the branch runs. -/
theorem C1_amended (pce : String) (lbl : List HrefVal) (ip : String)
    (w : Workload) :
    (0 < matchCount w ip ↔
      w.interfaces ≠ [] ∧
        (w.public_ip = ip ∨ ∃ d ∈ w.interfaces, d.address = ip)) ∧
    (workloadEvents pce lbl ip w = [] ↔ matchCount w ip = 0) := by
  have hcond : ∀ d : Interface, matchCond w ip d = true ↔
      (d.address = ip ∨ w.public_ip = ip) := by
    intro d
    simp [matchCond]
  constructor
  · rw [matchCount, List.length_pos, ne_eq, List.filter_eq_nil_iff]
    push_neg
    constructor
    · rintro ⟨d, hd, hc⟩
      rw [hcond] at hc
      refine ⟨List.ne_nil_of_mem hd, ?_⟩
      rcases hc with h1 | h2
      · exact Or.inr ⟨d, hd, h1⟩
      · exact Or.inl h2
    · rintro ⟨hne, h1 | ⟨d, hd, ha⟩⟩
      · obtain ⟨d, hd⟩ := List.exists_mem_of_ne_nil _ hne
        exact ⟨d, hd, (hcond d).mpr (Or.inr h1)⟩
      · exact ⟨d, hd, (hcond d).mpr (Or.inl ha)⟩
  · rw [workloadEvents, matchCount]
    simp

/-- C2, counterexample: the claim says a label field that is empty in the
CSV row is omitted from the update payload.  In `envC2` the row's `role`
cell is empty, yet the module resolves it like any other value: it issues
a create request for the pair `("role", "")` and the single update payload
carries 4 references, the first being the created one (the first byte of
the create response body). -/
theorem C2_counterexample :
    (run_module envC2 [rowC2]).map
      (fun st => (putPayloads st.events, postCount st.events "role" "")) =
    .ok ([[HrefVal.byte 123, HrefVal.str "ha", HrefVal.str "he",
      HrefVal.str "hl"]], 1) := by rfl

/-- C2, amended: every update payload of a row lists, in the order role,
app, env, loc, exactly those resolved hrefs that are Python-truthy; when
all four resolved hrefs are truthy the payload has exactly 4 references in
that order.  Emptiness of the CSV cell plays no role: an empty cell is
resolved (creating a label with empty value if absent) and its href is
included whenever truthy. -/
theorem C2_amended (env : Env) (cat : Catalog) (row : Row) (cat' : Catalog)
    (evs : List Event) (rh ah eh lh : HrefVal) (rr : RowResult)
    (h1 : resolveRow env cat row = .ok (cat', evs, rh, ah, eh, lh))
    (h2 : processRow env cat row = .ok rr) :
    putPayloads rr.events =
      List.replicate (numMatches env.workloads row.ip)
        ([rh, ah, eh, lh].filter truthy) ∧
    buildLabel rh ah eh lh = [rh, ah, eh, lh].filter truthy := by
  obtain ⟨cat2, evs2, rh2, ah2, eh2, lh2, hr2, rfl⟩ := processRow_eq h2
  have heq := Except.ok.inj (h1.symm.trans hr2)
  obtain ⟨rfl, rfl, rfl, rfl, rfl, rfl⟩ := by
    simpa [Prod.mk.injEq] using heq
  obtain ⟨dr, e1, da, e2, de, e3, dl, e4, hh1, hh2, hh3, hh4, rfl, rfl⟩ :=
    resolveRow_cases hr2
  have q1 := (resolveOne_no_puts hh1).2
  have q2 := (resolveOne_no_puts hh2).2
  have q3 := (resolveOne_no_puts hh3).2
  have q4 := (resolveOne_no_puts hh4).2
  have hP := (putBlock_counts env.pce (buildLabel rh ah eh lh) row.ip
    env.workloads).2.1
  refine ⟨?_, buildLabel_eq_filter rh ah eh lh⟩
  simp only [putPayloads_append, q1, q2, q3, q4, hP, List.nil_append]
  rw [buildLabel_eq_filter]

/-- C2, witness for the amended statement, at the `envC2` scenario. -/
theorem C2_amended_witness :
    putPayloads (RowResult.mk
        ⟨[("", HrefVal.byte 123)], [("x", HrefVal.str "ha")],
          [("x", HrefVal.str "he")], [("x", HrefVal.str "hl")]⟩
        [Event.post "role" "",
          Event.put "https://pce/api/v2/w1"
            [HrefVal.byte 123, HrefVal.str "ha", HrefVal.str "he",
              HrefVal.str "hl"]]
        ["1.2.3.4"] []).events =
      List.replicate (numMatches envC2.workloads rowC2.ip)
        ([HrefVal.byte 123, HrefVal.str "ha", HrefVal.str "he",
          HrefVal.str "hl"].filter truthy) ∧
    buildLabel (HrefVal.byte 123) (HrefVal.str "ha") (HrefVal.str "he")
        (HrefVal.str "hl") =
      [HrefVal.byte 123, HrefVal.str "ha", HrefVal.str "he",
        HrefVal.str "hl"].filter truthy :=
  C2_amended envC2 (buildCatalog envC2.labelsResp.items) rowC2
    ⟨[("", HrefVal.byte 123)], [("x", HrefVal.str "ha")],
      [("x", HrefVal.str "he")], [("x", HrefVal.str "hl")]⟩
    [Event.post "role" ""]
    (HrefVal.byte 123) (HrefVal.str "ha") (HrefVal.str "he")
    (HrefVal.str "hl")
    (RowResult.mk
      ⟨[("", HrefVal.byte 123)], [("x", HrefVal.str "ha")],
        [("x", HrefVal.str "he")], [("x", HrefVal.str "hl")]⟩
      [Event.post "role" "",
        Event.put "https://pce/api/v2/w1"
          [HrefVal.byte 123, HrefVal.str "ha", HrefVal.str "he",
            HrefVal.str "hl"]]
      ["1.2.3.4"] [])
    (by rfl) (by rfl)

/-- C3: a CSV row whose ip equals no fetched workload's `public_ip` and no
interface address is recorded in `not_assigned` — exactly once for that
row, with nothing appended to `assigned` and no PUT issued while
processing it — and its ip is present in the final `not_assigned` list of
any successful run containing that row. -/
theorem C3_unmatched_ip (env : Env) (row : Row)
    (hm : ∀ w ∈ env.workloads, matchCount w row.ip = 0) :
    (∀ cat rr, processRow env cat row = .ok rr →
      rr.notAssigned = [row.ip] ∧ rr.assigned = [] ∧
        putCount rr.events = 0) ∧
    (∀ rows st, run_module env rows = .ok st → row ∈ rows →
      row.ip ∈ st.notAssigned) := by
  refine ⟨fun cat rr h => processRow_no_match hm h,
    fun rows st h hrow => ?_⟩
  obtain ⟨cat0, hd, hrun⟩ := run_module_cases h
  exact runRows_notAssigned_mem hrun hrow hm

/-- C3, witness: the ip `"5.5.5.5"` matches nothing in `envC1` and ends up
in the final `not_assigned` list. -/
theorem C3_witness :
    "5.5.5.5" ∈
      (RunState.mk (buildCatalog itemsAll) [] [] ["5.5.5.5"]).notAssigned :=
  (C3_unmatched_ip envC1 rowNM (by decide)).2 [rowNM]
    (RunState.mk (buildCatalog itemsAll) [] [] ["5.5.5.5"]) (by rfl)
    (by simp)

/-- C4: within one assignment run, at most one create request is issued
per distinct `(type, value)` pair — once an identifier is resolved
(fetched or created) it sits in the in-memory catalog and is reused by
every later row. -/
theorem C4_at_most_one_create (env : Env) (rows : List Row) (st : RunState)
    (h : run_module env rows = .ok st) (k v : String) :
    postCount st.events k v ≤ 1 := by
  obtain ⟨cat0, hd, hrun⟩ := run_module_cases h
  have hinv := runRows_postCount hrun k v
  have hinit1 : postCount (RunState.mk cat0 [] [] []).events k v = 0 := rfl
  have hinit2 : catHas (RunState.mk cat0 [] [] []).catalog k v =
      catHas cat0 k v := rfl
  rw [hinit1, hinit2] at hinv
  have hb : (if catHas cat0 k v then 0 else 1) ≤ 1 := by split <;> omega
  omega

/-- C4, witness: in the `envC2` run the pair `("role", "")` is created
once and only once. -/
theorem C4_witness :
    postCount (RunState.mk
        ⟨[("", HrefVal.byte 123)], [("x", HrefVal.str "ha")],
          [("x", HrefVal.str "he")], [("x", HrefVal.str "hl")]⟩
        [Event.post "role" "",
          Event.put "https://pce/api/v2/w1"
            [HrefVal.byte 123, HrefVal.str "ha", HrefVal.str "he",
              HrefVal.str "hl"]]
        ["1.2.3.4"] []).events "role" "" ≤ 1 :=
  C4_at_most_one_create envC2 [rowC2]
    (RunState.mk
      ⟨[("", HrefVal.byte 123)], [("x", HrefVal.str "ha")],
        [("x", HrefVal.str "he")], [("x", HrefVal.str "hl")]⟩
      [Event.post "role" "",
        Event.put "https://pce/api/v2/w1"
          [HrefVal.byte 123, HrefVal.str "ha", HrefVal.str "he",
            HrefVal.str "hl"]]
      ["1.2.3.4"] [])
    (by rfl) "role" ""

/-- C5, counterexample: the claim says a second creation-module run with
the same CSV creates no duplicates because the creation path queries the
existing labels before creating.  The module queries nothing: a run over a
CSV with the single valid row `("app", "x")` issues the create request
unconditionally, and a second identical run issues it again — two create
requests for the same pair. -/
theorem C5_counterexample :
    createPosts (outcomeEvents (create_run_module none none
        (some "labels.csv") [⟨"app", "x"⟩] respOk)) ++
      createPosts (outcomeEvents (create_run_module none none
        (some "labels.csv") [⟨"app", "x"⟩] respOk)) =
    [("app", "x"), ("app", "x")] := by rfl

/-- C5, amended: in CSV mode (and with no POST raising) the creation
module issues exactly one create request per valid row — determined by the
CSV alone, never by the platform's existing labels, which it does not
query.  Re-running with the same CSV therefore re-issues the same create
requests; any idempotence of catalog state would have to come from the
platform, not from this module. -/
theorem C5_amended (nameP typeP pathP : Option String) (rows : List CRow)
    (resp : String → String → Option Nat)
    (hresp : ∀ k v, (resp k v).isSome = true)
    (hp : strTruthy pathP = true) :
    createPosts (outcomeEvents
        (create_run_module nameP typeP pathP rows resp)) =
      (rows.filter (fun r => validTypeCsv r.type)).map
        (fun r => (r.type, r.name)) := by
  unfold create_run_module
  simp only [hp, if_true]
  have h := csvRun_posts hresp rows []
  simpa [createPosts] using h

/-- C5, witness for the amended statement: a CSV with the same valid row
twice triggers two create requests for the same pair within one run. -/
theorem C5_amended_witness :
    createPosts (outcomeEvents (create_run_module none none
        (some "labels.csv") [⟨"app", "x"⟩, ⟨"app", "x"⟩] respOk)) =
      (([⟨"app", "x"⟩, ⟨"app", "x"⟩] : List CRow).filter
        (fun r => validTypeCsv r.type)).map (fun r => (r.type, r.name)) :=
  C5_amended none none (some "labels.csv") [⟨"app", "x"⟩, ⟨"app", "x"⟩]
    respOk (fun k v => rfl) (by rfl)

/-- C6: in creation-module CSV mode an invalid-type row is recorded as the
exact error string
`Invalid type:<type>. Type should be either env,app,loc,role`, no create
request is issued for that row, and the loop continues with the remaining
rows; when the run completes normally the string is in the error list. -/
theorem C6_invalid_type_csv (resp : String → String → Option Nat)
    (acc : List CEvent) (k n : String) (rest : List CRow)
    (hv : validTypeCsv k = false) :
    csvRun resp acc (⟨k, n⟩ :: rest) =
      csvRun resp (acc ++ [.recordError ("Invalid type:" ++ k ++
        ". Type should be either env,app,loc,role")]) rest ∧
    (∀ evs, csvRun resp acc (⟨k, n⟩ :: rest) = .normal evs →
      ("Invalid type:" ++ k ++ ". Type should be either env,app,loc,role") ∈
        errorsOf evs) := by
  have hstep : csvRun resp acc (⟨k, n⟩ :: rest) =
      csvRun resp (acc ++ [.recordError ("Invalid type:" ++ k ++
        ". Type should be either env,app,loc,role")]) rest := by
    simp only [csvRun, hv, Bool.false_eq_true, if_false]
  refine ⟨hstep, fun evs hnorm => ?_⟩
  rw [hstep] at hnorm
  refine mem_errorsOf (csvRun_mem_of_normal hnorm ?_)
  exact List.mem_append_right _ (by simp)

/-- C6, witness at the documented example row `("ap", "test")`. -/
theorem C6_witness :
    "Invalid type:ap. Type should be either env,app,loc,role" ∈
      errorsOf [CEvent.recordError
        "Invalid type:ap. Type should be either env,app,loc,role"] :=
  (C6_invalid_type_csv respOk [] "ap" "test" [] (by rfl)).2
    [CEvent.recordError
      "Invalid type:ap. Type should be either env,app,loc,role"]
    (by rfl)

/-- C7: in creation-module single-record mode an invalid type terminates
the run at once with the failure exit
(`msg="Invalid type value.", failed=l_type`); no create request is issued
and nothing is recorded. -/
theorem C7_invalid_type_single (nameP typeP pathP : Option String)
    (rows : List CRow) (resp : String → String → Option Nat)
    (hp : strTruthy pathP = false) (ht : strTruthy typeP = true)
    (hn : strTruthy nameP = true)
    (hv : validTypeSingle (typeP.getD "") = false) :
    create_run_module nameP typeP pathP rows resp =
      .invalidSingle (typeP.getD "") ∧
    outcomeEvents (create_run_module nameP typeP pathP rows resp) = [] := by
  have hmain : create_run_module nameP typeP pathP rows resp =
      .invalidSingle (typeP.getD "") := by
    unfold create_run_module
    simp only [hp, ht, hn, hv, Bool.false_eq_true, if_false, Bool.and_self,
      if_true]
  exact ⟨hmain, by rw [hmain]; rfl⟩

/-- C7, witness at the documented example type `"ap"`. -/
theorem C7_witness :
    create_run_module (some "n") (some "ap") none [] respOk =
      .invalidSingle ((some "ap").getD "") ∧
    outcomeEvents (create_run_module (some "n") (some "ap") none []
      respOk) = [] :=
  C7_invalid_type_single (some "n") (some "ap") none [] respOk
    (by rfl) (by rfl) (by rfl) (by rfl)

/-- C8, counterexample: the claim says the condition guarding the
asynchronous helper is unreachable.  A labels GET body of exactly 500
bytes reaches it: `display_labels` then aborts (the helper's un-awaited
coroutine has no `content` attribute), so the whole run fails instead of
parsing the synchronous body. -/
theorem C8_counterexample :
    display_labels ⟨500, itemsAll⟩ = .error RunError.asyncBranch ∧
    run_module ⟨⟨500, itemsAll⟩, [], respByte, "https://pce"⟩ [] =
      .error RunError.asyncBranch := ⟨rfl, rfl⟩

/-- C8, amended: the guard (raw body length exactly 500) is reachable, and
when it fires the run aborts; whenever `display_labels` succeeds the
catalog is parsed from the synchronous GET body — the asynchronous helper
never contributes a labels listing to any successful run. -/
theorem C8_amended (resp : LabelsResponse) (cat : Catalog)
    (h : display_labels resp = .ok cat) :
    cat = buildCatalog resp.items ∧ resp.contentLen ≠ 500 := by
  unfold display_labels at h
  by_cases hc : (resp.contentLen == 500) = true
  · rw [if_pos hc] at h
    exact Except.noConfusion h
  · rw [if_neg hc] at h
    exact ⟨(Except.ok.inj h).symm, by simpa using hc⟩

/-- C8, witness for the amended statement at a 10-byte body. -/
theorem C8_amended_witness :
    buildCatalog itemsAll =
      buildCatalog (LabelsResponse.mk 10 itemsAll).items ∧
    (LabelsResponse.mk 10 itemsAll).contentLen ≠ 500 :=
  C8_amended ⟨10, itemsAll⟩ (buildCatalog itemsAll) (by rfl)

/-- C9, counterexample: the claim says `labels_assigned` holds each ip at
most once, and that a row matching exactly one workload by `public_ip`
yields exactly one entry and one update call.  In `envC9` the single
workload matches rowX by `public_ip` but has two interfaces, and the
matching branch runs once per interface: the ip is appended twice and two
PUT requests are issued. -/
theorem C9_counterexample :
    (run_module envC9 [rowX]).map
      (fun st => (st.assigned, putCount st.events)) =
    .ok (["1.2.3.4", "1.2.3.4"], 2) := by rfl

/-- C9, amended: `assigned` is a list, not a set: one row appends its ip
once per matching workload/interface pair and issues one PUT per such
pair; a row matching one workload by `public_ip` yields exactly one entry
and one PUT only when that workload has exactly one interface. -/
theorem C9_amended (env : Env) (cat : Catalog) (row : Row) (rr : RowResult)
    (h : processRow env cat row = .ok rr) :
    rr.assigned = List.replicate (numMatches env.workloads row.ip) row.ip ∧
    putCount rr.events = numMatches env.workloads row.ip := by
  obtain ⟨cat', evs, rh, ah, eh, lh, hr, rfl⟩ := processRow_eq h
  obtain ⟨dr, e1, da, e2, de, e3, dl, e4, h1, h2, h3, h4, rfl, rfl⟩ :=
    resolveRow_cases hr
  have p1 := (resolveOne_no_puts h1).1
  have p2 := (resolveOne_no_puts h2).1
  have p3 := (resolveOne_no_puts h3).1
  have p4 := (resolveOne_no_puts h4).1
  have hP := (putBlock_counts env.pce (buildLabel rh ah eh lh) row.ip
    env.workloads).1
  refine ⟨rfl, ?_⟩
  simp only [putCount_append, p1, p2, p3, p4, hP]
  omega

/-- C9, witness for the amended statement at the `envC9` scenario. -/
theorem C9_amended_witness :
    (RowResult.mk (buildCatalog itemsAll)
        [Event.put "https://pce/api/v2/w1"
          [HrefVal.str "hr", HrefVal.str "ha", HrefVal.str "he",
            HrefVal.str "hl"],
         Event.put "https://pce/api/v2/w1"
          [HrefVal.str "hr", HrefVal.str "ha", HrefVal.str "he",
            HrefVal.str "hl"]]
        ["1.2.3.4", "1.2.3.4"] []).assigned =
      List.replicate (numMatches envC9.workloads rowX.ip) rowX.ip ∧
    putCount (RowResult.mk (buildCatalog itemsAll)
        [Event.put "https://pce/api/v2/w1"
          [HrefVal.str "hr", HrefVal.str "ha", HrefVal.str "he",
            HrefVal.str "hl"],
         Event.put "https://pce/api/v2/w1"
          [HrefVal.str "hr", HrefVal.str "ha", HrefVal.str "he",
            HrefVal.str "hl"]]
        ["1.2.3.4", "1.2.3.4"] []).events =
      numMatches envC9.workloads rowX.ip :=
  C9_amended envC9 (buildCatalog itemsAll) rowX
    (RowResult.mk (buildCatalog itemsAll)
      [Event.put "https://pce/api/v2/w1"
        [HrefVal.str "hr", HrefVal.str "ha", HrefVal.str "he",
          HrefVal.str "hl"],
       Event.put "https://pce/api/v2/w1"
        [HrefVal.str "hr", HrefVal.str "ha", HrefVal.str "he",
          HrefVal.str "hl"]]
      ["1.2.3.4", "1.2.3.4"] [])
    (by rfl)

/-- C10: the creation module never inspects a create response: two
never-raising response environments produce identical runs (same success
and error lists), whatever statuses or bodies they answer; and in
single-record mode the success string is appended before the POST is
issued — even when that POST raises, the success entry already precedes
the create request in the trace. -/
theorem C10_response_never_inspected (nameP typeP pathP pathPb : Option String)
    (rows : List CRow) (resp resp2 respN : String → String → Option Nat)
    (t n : String)
    (ha : ∀ k v, (resp k v).isSome = true)
    (hb : ∀ k v, (resp2 k v).isSome = true)
    (hpb : strTruthy pathPb = false) (ht : strTruthy (some t) = true)
    (hn : strTruthy (some n) = true) (hv : validTypeSingle t = true)
    (hcrash : respN t n = none) :
    create_run_module nameP typeP pathP rows resp =
      create_run_module nameP typeP pathP rows resp2 ∧
    create_run_module (some n) (some t) pathPb rows respN =
      .failError [.recordSuccess (t ++ " : " ++ n), .cpost t n] := by
  constructor
  · unfold create_run_module
    by_cases hpath : strTruthy pathP = true
    · simp only [hpath, if_true]
      exact csvRun_resp_irrel ha hb rows []
    · simp only [hpath, Bool.false_eq_true, if_false]
      by_cases hsingle : (strTruthy typeP && strTruthy nameP) = true
      · simp only [hsingle, if_true]
        cases h1 : resp (typeP.getD "") (nameP.getD "") with
        | none =>
          exfalso
          have := ha (typeP.getD "") (nameP.getD "")
          rw [h1] at this
          simp at this
        | some s =>
          cases h2 : resp2 (typeP.getD "") (nameP.getD "") with
          | none =>
            exfalso
            have := hb (typeP.getD "") (nameP.getD "")
            rw [h2] at this
            simp at this
          | some s2 =>
            by_cases hvt : validTypeSingle (typeP.getD "") = true
            · simp only [hvt, if_true, h1, h2]
            · simp only [hvt, Bool.false_eq_true, if_false]
      · simp only [hsingle, Bool.false_eq_true, if_false]
  · unfold create_run_module
    simp only [hpb, ht, hn, hv, hcrash, Bool.false_eq_true, if_false,
      Bool.and_self, if_true, Option.getD_some]

/-- C10, witness: concrete never-raising environments agree, and a raising
single-record POST still leaves the success entry first in the trace. -/
theorem C10_witness :
    (create_run_module (some "n") (some "app") (some "labels.csv")
        [⟨"app", "x"⟩] respOk =
      create_run_module (some "n") (some "app") (some "labels.csv")
        [⟨"app", "x"⟩] respOk) ∧
    create_run_module (some "x") (some "app") none [⟨"app", "x"⟩]
        respNone =
      .failError [.recordSuccess ("app" ++ " : " ++ "x"),
        .cpost "app" "x"] :=
  C10_response_never_inspected (some "n") (some "app") (some "labels.csv")
    none [⟨"app", "x"⟩] respOk respOk respNone "app" "x"
    (fun k v => rfl) (fun k v => rfl) (by rfl) (by rfl) (by rfl) (by rfl)
    (by rfl)

end Illumio
